import Mathlib

/-!
Shallow embedding of `embassy-rp/src/bootsel.rs` (BOOTSEL button polling on
the RP2040) and proofs of its specification claims.

The source polls hardware registers whose values evolve over time, so the
hardware inputs are modelled as functions of a discrete time counter `Nat`
(one tick per busy-wait poll).  Each busy-wait loop of the source becomes a
fuel-bounded search for the first tick at which its exit condition holds;
`none` models an invocation that never completes (the source loops forever).
Register writes and cross-core calls are recorded in an event trace.
-/

namespace Bootsel

/-- Output-enable override values, embedding `rp_pac::io::vals::Oeover`. -/
inductive Oeover where
  | NORMAL
  | INVERT
  | DISABLE
  | ENABLE
  deriving DecidableEq

/-- Time-indexed hardware inputs read by the polling protocol: the core id
(`SIO.cpuid`), per-channel DMA read address and busy flag
(`DMA.ch(n).read_addr`, `DMA.ch(n).ctrl_trig().busy()`), the XIP streaming
counter (`XIP_CTRL.stream_ctr`), the XIP status bits
(`XIP_CTRL.stat`: `fifo_empty`, `flush_ready`) and the raw QSPI CS pad level
(`IO_QSPI.gpio(1).status().infrompad()`).  These are inputs the code only
reads; their evolution over time is chosen by the environment. -/
structure Env where
  cpuid : Nat
  dmaReadAddr : Nat → Nat → Nat
  dmaBusy : Nat → Nat → Bool
  streamCtr : Nat → Nat
  fifoEmpty : Nat → Bool
  flushReady : Nat → Bool
  infrompad : Nat → Bool

/-- Observable events of one invocation: cross-core pause/resume, entry and
exit of the `critical_section::with` closure, the per-channel DMA quiescence
wait (with its start and exit ticks), the stream-counter wait, the XIP status
wait, a write to an `IO_QSPI.gpio(pin).ctrl()` register (only the `oeover`
field is meaningful to this module), the calibrated delay loop, and the pad
sample. -/
inductive Event where
  | pauseCore1
  | resumeCore1
  | csEnter
  | csExit
  | dmaCheck (n tStart tEnd : Nat)
  | streamWait (tStart tEnd : Nat)
  | xipStatWait (tStart tEnd : Nat)
  | ctrlWrite (pin : Nat) (v : Oeover)
  | delayLoop (cycles : Nat)
  | padSample (pin t : Nat) (raw : Bool)
  deriving DecidableEq

/-- The panic message of the core-id assertion in `poll_bootsel_unsafe`. -/
def needCore0Msg : String := "Need to be on core 0"

/-- Writable hardware state touched by the module: the `oeover` field of each
`IO_QSPI.gpio(p).ctrl()` register. -/
def GpioCtrl : Type := Nat → Oeover

/-- A write of `v` into the `oeover` field of `IO_QSPI.gpio(pin).ctrl()`. -/
def setOeover (g : GpioCtrl) (pin : Nat) (v : Oeover) : GpioCtrl :=
  fun q => if q = pin then v else g q

/-- Result of one invocation of the entry point: either it returns the
sampled button state (with the final gpio state, the event trace and the
finishing tick), panics (core-id assertion), or never returns (a busy-wait
that exceeds the fuel, modelling divergence). -/
inductive Outcome where
  | done (button : Bool) (gpio : GpioCtrl) (trace : List Event) (tEnd : Nat)
  | panicked (msg : String) (gpio : GpioCtrl) (trace : List Event)
  | diverged

/-- Whether the invocation returned normally. -/
def Outcome.isDone : Outcome → Bool
  | .done _ _ _ _ => true
  | _ => false

/-- Whether the invocation hit the fatal precondition path. -/
def Outcome.isPanicked : Outcome → Bool
  | .panicked _ _ _ => true
  | _ => false

/-- The returned button state, when the invocation returned. -/
def Outcome.button? : Outcome → Option Bool
  | .done b _ _ _ => some b
  | _ => none

/-- The event trace of the invocation (empty if it never returned). -/
def Outcome.trace : Outcome → List Event
  | .done _ _ tr _ => tr
  | .panicked _ _ tr => tr
  | .diverged => []

/-- The final `oeover` value of `IO_QSPI.gpio(p).ctrl()`, when the invocation
exited. -/
def Outcome.gpioAt : Outcome → Nat → Option Oeover
  | .done _ g _ _, p => some (g p)
  | .panicked _ g _, p => some (g p)
  | .diverged, _ => none

/-- The tick at which the invocation returned. -/
def Outcome.tEnd? : Outcome → Option Nat
  | .done _ _ _ te => some te
  | _ => none

/-- First tick `u ≥ t` with `p u = true`, searching at most `fuel` ticks.
This is the meaning of a source busy-wait loop whose exit condition is `p`. -/
def firstTime (p : Nat → Bool) : Nat → Nat → Option Nat
  | 0, _ => none
  | fuel + 1, t => if p t then some t else firstTime p fuel (t + 1)

/-- Base of SRAM; `const SRAM_LOWER: u32 = 0x2000_0000` in the source.  The
quiescence check treats a DMA read address below this bound as still on the
flash side of the address map. -/
def SRAM_LOWER : Nat := 0x20000000

/-- Exit condition of the per-channel DMA wait loop
`while ch.read_addr().read() < SRAM_LOWER && ch.ctrl_trig().read().busy() {}`:
the loop exits at the first tick where the conjunction fails. -/
def dmaExit (env : Env) (n t : Nat) : Bool :=
  !(decide (env.dmaReadAddr n t < SRAM_LOWER) && env.dmaBusy n t)

/-- The per-channel DMA quiescence wait: busy-polls channel `n` from tick `t`
until its read address leaves the sub-SRAM range or its busy flag clears. -/
def dmaWait (env : Env) (n : Nat) (fuel t : Nat) : Option Nat :=
  firstTime (fun u => dmaExit env n u) fuel t

/-- The `for n in 0..12` loop of the quiescence checker, threaded over the
remaining channel indices: waits for each channel in turn, returning the
finishing tick and one `dmaCheck` event per channel. -/
def dmaQuiesceFrom (env : Env) (fuel : Nat) : List Nat → Nat → Option (Nat × List Event)
  | [], t => some (t, [])
  | n :: ns, t =>
    match dmaWait env n fuel t with
    | none => none
    | some te =>
      match dmaQuiesceFrom env fuel ns (te + 1) with
      | none => none
      | some (tf, tr) => some (tf, Event.dmaCheck n t te :: tr)

/-- Exit condition of `while rp_pac::XIP_CTRL.stream_ctr().read().0 > 0 {}`. -/
def streamExit (env : Env) (t : Nat) : Bool :=
  env.streamCtr t == 0

/-- Exit condition of the XIP status loop in `poll_bootsel_ramfunc`:
`if xip_status.fifo_empty() && xip_status.flush_ready() { break; }`. -/
def xipIdle (env : Env) (t : Nat) : Bool :=
  env.fifoEmpty t && env.flushReady t

/-- Result of the RAM-resident window: sampled button, updated gpio state,
events and finishing tick. -/
structure RamResult where
  button : Bool
  gpio : GpioCtrl
  trace : List Event
  tEnd : Nat

/-- Embedding of `poll_bootsel_ramfunc`: wait for the XIP controller to be
idle, disable the CS pin's output drive, run the calibrated delay loop
(`cortex_m::asm::delay(2000)`), sample the pad (active low, inverted), and
restore the output-enable override to normal. -/
def poll_bootsel_ramfunc (env : Env) (gpio : GpioCtrl) (fuel t : Nat) :
    Option RamResult :=
  match firstTime (fun u => xipIdle env u) fuel t with
  | none => none
  | some t1 =>
    let g1 := setOeover gpio 1 Oeover.DISABLE
    let raw := env.infrompad (t1 + 2002)
    let g2 := setOeover g1 1 Oeover.NORMAL
    some ⟨!raw, g2,
      [Event.xipStatWait t t1, Event.ctrlWrite 1 Oeover.DISABLE,
       Event.delayLoop 2000, Event.padSample 1 (t1 + 2002) raw,
       Event.ctrlWrite 1 Oeover.NORMAL],
      t1 + 2003⟩

/-- The sampled trace of the window, for stating claims without mentioning
the (function-valued) gpio state. -/
def ramTrace? (env : Env) (gpio : GpioCtrl) (fuel t : Nat) : Option (List Event) :=
  (poll_bootsel_ramfunc env gpio fuel t).map (fun r => r.trace)

/-- The sampled button of the window. -/
def ramButton? (env : Env) (gpio : GpioCtrl) (fuel t : Nat) : Option Bool :=
  (poll_bootsel_ramfunc env gpio fuel t).map (fun r => r.button)

/-- Embedding of `poll_bootsel_unsafe` (the entry point `poll`): assert core
0, pause core 1, and inside a critical section run the DMA quiescence loop
over channels 0..11, the streaming-read drain loop, and the RAM-resident
window; then resume core 1 and return the sampled state. -/
def poll_bootsel (env : Env) (gpio : GpioCtrl) (fuel t0 : Nat) : Outcome :=
  if env.cpuid == 0 then
    match dmaQuiesceFrom env fuel (List.range 12) t0 with
    | none => .diverged
    | some (t1, dtr) =>
      match firstTime (fun u => streamExit env u) fuel t1 with
      | none => .diverged
      | some t2 =>
        match poll_bootsel_ramfunc env gpio fuel (t2 + 1) with
        | none => .diverged
        | some r =>
          .done r.button r.gpio
            (Event.pauseCore1 :: Event.csEnter :: dtr ++
              Event.streamWait t1 t2 :: r.trace ++
              [Event.csExit, Event.resumeCore1])
            r.tEnd
  else
    .panicked needCore0Msg gpio []

/-- The channel index of a `dmaCheck` event. -/
def Event.dmaChan? : Event → Option Nat
  | .dmaCheck n _ _ => some n
  | _ => none

/-- Whether an event is a hardware register write. -/
def Event.isCtrlWrite : Event → Bool
  | .ctrlWrite _ _ => true
  | _ => false

/-- Hardware inputs that are stable across the whole observation: every
polled register and the pad level read the same value at every tick. -/
def Env.stable (env : Env) : Prop :=
  (∀ n u, env.dmaReadAddr n u = env.dmaReadAddr n 0) ∧
  (∀ n u, env.dmaBusy n u = env.dmaBusy n 0) ∧
  (∀ u, env.streamCtr u = env.streamCtr 0) ∧
  (∀ u, env.fifoEmpty u = env.fifoEmpty 0) ∧
  (∀ u, env.flushReady u = env.flushReady 0) ∧
  (∀ u, env.infrompad u = env.infrompad 0)

/-- A quiescent test environment: running on core 0, every DMA channel
parked at the SRAM base and idle, no outstanding streamed reads, XIP queues
drained, and the pad held low (button pressed). -/
def env0 : Env where
  cpuid := 0
  dmaReadAddr := fun _ _ => 0x20000000
  dmaBusy := fun _ _ => false
  streamCtr := fun _ => 0
  fifoEmpty := fun _ => true
  flushReady := fun _ => true
  infrompad := fun _ => false

/-- Like `env0` but with the pad held high (button released). -/
def envHigh : Env := { env0 with infrompad := fun _ => true }

/-- Like `env0` but running on core 1. -/
def envCore1 : Env := { env0 with cpuid := 1 }

/-- Like `env0` but with DMA channel reads inside the sub-SRAM range and the
busy flags set until tick 2. -/
def envDmaBusy : Env :=
  { env0 with
    dmaReadAddr := fun _ _ => 0x10000100
    dmaBusy := fun _ t => decide (t < 2) }

/-- Initial gpio state with every output-enable override normal. -/
def g0 : GpioCtrl := fun _ => Oeover.NORMAL

/-- Characterisation of a successful busy-wait: the returned tick is at or
after the start, the exit condition holds there, and it failed at every
earlier tick of the wait (first-exit semantics). -/
theorem firstTime_spec (p : Nat → Bool) :
    ∀ fuel t te, firstTime p fuel t = some te →
      t ≤ te ∧ p te = true ∧ ∀ u, t ≤ u → u < te → p u = false := by
  intro fuel
  induction fuel with
  | zero => intro t te h; simp [firstTime] at h
  | succ m ih =>
    intro t te h
    simp only [firstTime] at h
    split at h
    next hp =>
      injection h with h; subst h
      exact ⟨Nat.le_refl _, hp,
        fun u hu hl => absurd (Nat.lt_of_le_of_lt hu hl) (Nat.lt_irrefl _)⟩
    next hp =>
      obtain ⟨h1, h2, h3⟩ := ih (t + 1) te h
      refine ⟨Nat.le_trans (Nat.le_succ t) h1, h2, fun u hu hl => ?_⟩
      rcases Nat.eq_or_lt_of_le hu with heq | hgt
      · subst heq; exact Bool.eq_false_iff.mpr hp
      · exact h3 u hgt hl

/-- A busy-wait whose exit condition already holds exits at its start tick. -/
theorem firstTime_immediate (p : Nat → Bool) (fuel t : Nat) (h : p t = true) :
    firstTime p (fuel + 1) t = some t := by
  simp [firstTime, h]

/-- Structure of a completed quiescence loop: it emits one `dmaCheck` event
per listed channel, in list order, and nothing else; and for each listed
channel it actually found a tick at which the channel was quiescent. -/
theorem dmaQuiesceFrom_shape (env : Env) (fuel : Nat) :
    ∀ ns t tf tr, dmaQuiesceFrom env fuel ns t = some (tf, tr) →
      tr.filterMap Event.dmaChan? = ns ∧
      (∀ e ∈ tr, ∃ n s x, e = Event.dmaCheck n s x) ∧
      (∀ n ∈ ns, ∃ u, dmaExit env n u = true) := by
  intro ns
  induction ns with
  | nil =>
    intro t tf tr h
    simp only [dmaQuiesceFrom, Option.some.injEq, Prod.mk.injEq] at h
    obtain ⟨-, rfl⟩ := h
    simp
  | cons n ns ih =>
    intro t tf tr h
    simp only [dmaQuiesceFrom] at h
    split at h
    · simp at h
    · rename_i te hw
      split at h
      · simp at h
      · rename_i tf' tr' hq
        simp only [Option.some.injEq, Prod.mk.injEq] at h
        obtain ⟨rfl, rfl⟩ := h
        obtain ⟨hA, hB, hC⟩ := ih (te + 1) tf' tr' hq
        refine ⟨?_, ?_, ?_⟩
        · simp [List.filterMap_cons, Event.dmaChan?, hA]
        · intro e he
          rcases List.mem_cons.mp he with rfl | he
          · exact ⟨n, t, te, rfl⟩
          · exact hB e he
        · intro m hm
          rcases List.mem_cons.mp hm with rfl | hm
          · exact ⟨te, (firstTime_spec _ fuel t te hw).2.1⟩
          · exact hC m hm

/-- Master shape of a completed invocation of the entry point: the core-id
check passed, each phase's busy-waits succeeded, and the result, final gpio
state, trace and finishing tick are determined by the phase exit ticks. -/
theorem poll_done_shape (env : Env) (g : GpioCtrl) (fuel t0 : Nat)
    (h : (poll_bootsel env g fuel t0).isDone = true) :
    ∃ t1 t2 t3 dtr,
      env.cpuid = 0 ∧
      dmaQuiesceFrom env fuel (List.range 12) t0 = some (t1, dtr) ∧
      firstTime (fun u => streamExit env u) fuel t1 = some t2 ∧
      firstTime (fun u => xipIdle env u) fuel (t2 + 1) = some t3 ∧
      poll_bootsel env g fuel t0 =
        Outcome.done (!env.infrompad (t3 + 2002))
          (setOeover (setOeover g 1 Oeover.DISABLE) 1 Oeover.NORMAL)
          (Event.pauseCore1 :: Event.csEnter :: dtr ++
            Event.streamWait t1 t2 :: Event.xipStatWait (t2 + 1) t3 ::
            Event.ctrlWrite 1 Oeover.DISABLE :: Event.delayLoop 2000 ::
            Event.padSample 1 (t3 + 2002) (env.infrompad (t3 + 2002)) ::
            Event.ctrlWrite 1 Oeover.NORMAL :: [Event.csExit, Event.resumeCore1])
          (t3 + 2003) := by
  cases hc : env.cpuid == 0 with
  | false => simp [poll_bootsel, hc, Outcome.isDone] at h
  | true =>
    cases hq : dmaQuiesceFrom env fuel (List.range 12) t0 with
    | none => simp [poll_bootsel, hc, hq, Outcome.isDone] at h
    | some pr =>
      obtain ⟨t1, dtr⟩ := pr
      cases hs : firstTime (fun u => streamExit env u) fuel t1 with
      | none => simp [poll_bootsel, hc, hq, hs, Outcome.isDone] at h
      | some t2 =>
        cases hx : firstTime (fun u => xipIdle env u) fuel (t2 + 1) with
        | none =>
          simp [poll_bootsel, poll_bootsel_ramfunc, hc, hq, hs, hx,
            Outcome.isDone] at h
        | some t3 =>
          refine ⟨t1, t2, t3, dtr, beq_iff_eq.mp hc, rfl, hs, hx, ?_⟩
          simp [poll_bootsel, poll_bootsel_ramfunc, hc, hq, hs, hx]

/-- An invocation that returned a button value completed normally. -/
theorem button_some_isDone (o : Outcome) (b : Bool) (h : o.button? = some b) :
    o.isDone = true := by
  cases o <;> simp [Outcome.button?, Outcome.isDone] at h ⊢

/-- The only panicking exit is the core-id assertion, taken before the pause
of core 1, with no event emitted and the gpio state untouched. -/
theorem poll_panicked_shape (env : Env) (g : GpioCtrl) (fuel t0 : Nat)
    (h : (poll_bootsel env g fuel t0).isPanicked = true) :
    poll_bootsel env g fuel t0 = Outcome.panicked needCore0Msg g [] := by
  cases hc : env.cpuid == 0 with
  | false => simp [poll_bootsel, hc]
  | true =>
    exfalso
    cases hq : dmaQuiesceFrom env fuel (List.range 12) t0 with
    | none => simp [poll_bootsel, hc, hq, Outcome.isPanicked] at h
    | some pr =>
      obtain ⟨t1, dtr⟩ := pr
      cases hs : firstTime (fun u => streamExit env u) fuel t1 with
      | none => simp [poll_bootsel, hc, hq, hs, Outcome.isPanicked] at h
      | some t2 =>
        cases hx : firstTime (fun u => xipIdle env u) fuel (t2 + 1) with
        | none =>
          simp [poll_bootsel, poll_bootsel_ramfunc, hc, hq, hs, hx,
            Outcome.isPanicked] at h
        | some t3 =>
          simp [poll_bootsel, poll_bootsel_ramfunc, hc, hq, hs, hx,
            Outcome.isPanicked] at h

/-- Under stable inputs each channel's quiescence condition is constant. -/
theorem stable_dmaExit {env : Env} (h : Env.stable env) (n u : Nat) :
    dmaExit env n u = dmaExit env n 0 := by
  simp [dmaExit, h.1 n u, h.2.1 n u]

/-- Under stable inputs the stream-drain condition is constant. -/
theorem stable_streamExit {env : Env} (h : Env.stable env) (u : Nat) :
    streamExit env u = streamExit env 0 := by
  simp [streamExit, h.2.2.1 u]

/-- Under stable inputs the XIP idle condition is constant. -/
theorem stable_xipIdle {env : Env} (h : Env.stable env) (u : Nat) :
    xipIdle env u = xipIdle env 0 := by
  simp [xipIdle, h.2.2.2.1 u, h.2.2.2.2.1 u]

/-- When every listed channel is quiescent at every tick, the quiescence
loop advances one tick per channel and completes. -/
theorem dmaQuiesceFrom_ready (env : Env) (fuel : Nat) :
    ∀ ns t, (∀ n ∈ ns, ∀ u, dmaExit env n u = true) →
      ∃ tr, dmaQuiesceFrom env (fuel + 1) ns t = some (t + ns.length, tr) := by
  intro ns
  induction ns with
  | nil => intro t _; exact ⟨[], by simp [dmaQuiesceFrom]⟩
  | cons n ns ih =>
    intro t h
    obtain ⟨tr, htr⟩ := ih (t + 1) (fun m hm u => h m (List.mem_cons_of_mem n hm) u)
    refine ⟨Event.dmaCheck n t t :: tr, ?_⟩
    have hw : dmaWait env n (fuel + 1) t = some t :=
      firstTime_immediate _ fuel t (h n (List.mem_cons_self n ns) t)
    have harith : t + (ns.length + 1) = (t + 1) + ns.length := by omega
    simp only [dmaQuiesceFrom, hw, htr, List.length_cons, harith]

/-- C1: an invocation of `poll_bootsel_unsafe` that returns control pauses
core 1 exactly once and resumes it exactly once, with the resume the last
action before returning; the only exit path that does not return — the
core-id assertion panic — fires before the pause, so no exit leaves core 1
paused without its matching resume. -/
theorem C1_pause_resume_paired
    (env : Env) (g : GpioCtrl) (fuel t0 : Nat)
    (env' : Env) (g' : GpioCtrl) (fuel' t0' : Nat)
    (hdone : (poll_bootsel env g fuel t0).isDone = true)
    (hpanic : (poll_bootsel env' g' fuel' t0').isPanicked = true) :
    (poll_bootsel env g fuel t0).trace.count Event.pauseCore1 = 1 ∧
    (poll_bootsel env g fuel t0).trace.count Event.resumeCore1 = 1 ∧
    (∃ l, (poll_bootsel env g fuel t0).trace = l ++ [Event.resumeCore1]) ∧
    (poll_bootsel env' g' fuel' t0').trace.count Event.pauseCore1 = 0 ∧
    (poll_bootsel env' g' fuel' t0').trace.count Event.resumeCore1 = 0 := by
  obtain ⟨t1, t2, t3, dtr, -, hq, -, -, hpoll⟩ :=
    poll_done_shape env g fuel t0 hdone
  obtain ⟨-, hB, -⟩ := dmaQuiesceFrom_shape env fuel (List.range 12) t0 t1 dtr hq
  have hpa : Event.pauseCore1 ∉ dtr := by
    intro hmem; obtain ⟨n, s, x, he⟩ := hB _ hmem; simp at he
  have hre : Event.resumeCore1 ∉ dtr := by
    intro hmem; obtain ⟨n, s, x, he⟩ := hB _ hmem; simp at he
  have hpan := poll_panicked_shape env' g' fuel' t0' hpanic
  rw [hpoll, hpan]
  refine ⟨?_, ?_, ?_, ?_, ?_⟩
  · simp [Outcome.trace, List.count_cons, List.count_append,
      List.count_eq_zero.mpr hpa]
  · simp [Outcome.trace, List.count_cons, List.count_append,
      List.count_eq_zero.mpr hre]
  · refine ⟨Event.pauseCore1 :: Event.csEnter :: dtr ++
      [Event.streamWait t1 t2, Event.xipStatWait (t2 + 1) t3,
       Event.ctrlWrite 1 Oeover.DISABLE, Event.delayLoop 2000,
       Event.padSample 1 (t3 + 2002) (env.infrompad (t3 + 2002)),
       Event.ctrlWrite 1 Oeover.NORMAL, Event.csExit], ?_⟩
    simp [Outcome.trace]
  · simp [Outcome.trace]
  · simp [Outcome.trace]

/-- C2: for completed invocations the returned boolean is the active-low
inversion of the raw pad level sampled in the window: a pad held low yields
`true`, a pad held high yields `false`. -/
theorem C2_active_low_inversion
    (env env' : Env) (g g' : GpioCtrl) (fuel fuel' t0 t0' : Nat)
    (hlow : ∀ u, env.infrompad u = false)
    (hdone : (poll_bootsel env g fuel t0).isDone = true)
    (hhigh : ∀ u, env'.infrompad u = true)
    (hdone' : (poll_bootsel env' g' fuel' t0').isDone = true) :
    (poll_bootsel env g fuel t0).button? = some true ∧
    (poll_bootsel env' g' fuel' t0').button? = some false := by
  obtain ⟨t1, t2, t3, dtr, -, -, -, -, hpoll⟩ :=
    poll_done_shape env g fuel t0 hdone
  obtain ⟨s1, s2, s3, dtr', -, -, -, -, hpoll'⟩ :=
    poll_done_shape env' g' fuel' t0' hdone'
  rw [hpoll, hpoll']
  constructor
  · simp [Outcome.button?, hlow]
  · simp [Outcome.button?, hhigh]

/-- C3: the transparency window performs exactly, in order: (1) a busy-wait
until the first tick at which the XIP status reads fifo-empty and
flush-ready, (2) the write of the CS pin's output-enable override to
DISABLE, (3) the fixed 2000-cycle delay loop, (4) the pad sample, inverted
into the result, and (5) the write of the override back to NORMAL; and in a
completed invocation of the entry point the restoring write precedes the
end of the critical section (and the resume of core 1). -/
theorem C3_window_order
    (env : Env) (g : GpioCtrl) (fuel t : Nat) (tr : List Event)
    (env2 : Env) (g2 : GpioCtrl) (fuel2 t02 : Nat)
    (h : ramTrace? env g fuel t = some tr)
    (hdone : (poll_bootsel env2 g2 fuel2 t02).isDone = true) :
    (∃ t1,
      t ≤ t1 ∧ xipIdle env t1 = true ∧
      (∀ u, t ≤ u → u < t1 → xipIdle env u = false) ∧
      tr = [Event.xipStatWait t t1, Event.ctrlWrite 1 Oeover.DISABLE,
            Event.delayLoop 2000,
            Event.padSample 1 (t1 + 2002) (env.infrompad (t1 + 2002)),
            Event.ctrlWrite 1 Oeover.NORMAL] ∧
      ramButton? env g fuel t = some (!env.infrompad (t1 + 2002))) ∧
    (∃ l, (poll_bootsel env2 g2 fuel2 t02).trace =
      l ++ [Event.ctrlWrite 1 Oeover.NORMAL, Event.csExit,
            Event.resumeCore1]) := by
  constructor
  · cases hx : firstTime (fun u => xipIdle env u) fuel t with
    | none => simp [ramTrace?, poll_bootsel_ramfunc, hx] at h
    | some t1 =>
      obtain ⟨hle, hhold, hmin⟩ := firstTime_spec _ fuel t t1 hx
      refine ⟨t1, hle, hhold, hmin, ?_, ?_⟩
      · simp [ramTrace?, poll_bootsel_ramfunc, hx] at h
        first
        | exact h
        | exact h.symm
      · simp [ramButton?, poll_bootsel_ramfunc, hx]
  · obtain ⟨t1, t2, t3, dtr, -, -, -, -, hpoll⟩ :=
      poll_done_shape env2 g2 fuel2 t02 hdone
    refine ⟨Event.pauseCore1 :: Event.csEnter :: dtr ++
      [Event.streamWait t1 t2, Event.xipStatWait (t2 + 1) t3,
       Event.ctrlWrite 1 Oeover.DISABLE, Event.delayLoop 2000,
       Event.padSample 1 (t3 + 2002) (env2.infrompad (t3 + 2002))], ?_⟩
    rw [hpoll]
    simp [Outcome.trace]

/-- C4: a completed per-channel quiescence wait exits at the first tick at
which the channel stops being both sub-SRAM-targeted and busy: every
earlier tick of the wait satisfies both conditions, the exit tick refutes
their conjunction, and a channel whose read address is at or above the SRAM
base is passed immediately even while its busy flag is set. -/
theorem C4_dma_channel_wait
    (env : Env) (n fuel t0 te : Nat)
    (h : dmaWait env n fuel t0 = some te)
    (env' : Env) (n' fuel' t0' : Nat)
    (hout : SRAM_LOWER ≤ env'.dmaReadAddr n' t0') :
    t0 ≤ te ∧
    (∀ u, t0 ≤ u → u < te →
      env.dmaReadAddr n u < SRAM_LOWER ∧ env.dmaBusy n u = true) ∧
    ¬(env.dmaReadAddr n te < SRAM_LOWER ∧ env.dmaBusy n te = true) ∧
    dmaWait env' n' (fuel' + 1) t0' = some t0' := by
  obtain ⟨hle, hexit, hmin⟩ := firstTime_spec _ fuel t0 te h
  refine ⟨hle, ?_, ?_, ?_⟩
  · intro u hu hl
    have hu' := hmin u hu hl
    simpa [dmaExit] using hu'
  · rintro ⟨hP, hb⟩
    simp [dmaExit, hP, hb] at hexit
  · have hnl : ¬(env'.dmaReadAddr n' t0' < SRAM_LOWER) := Nat.not_lt.mpr hout
    exact firstTime_immediate _ fuel' t0' (by simp [dmaExit, hnl])

/-- C5: in a completed invocation, the busy-wait on the streaming-read
counter sits after all twelve DMA channel checks and immediately before the
window's first step, and it waits until the first tick at which the counter
reads zero. -/
theorem C5_stream_drain_position
    (env : Env) (g : GpioCtrl) (fuel t0 : Nat)
    (hdone : (poll_bootsel env g fuel t0).isDone = true) :
    ∃ dtr t1 t2 t3 l,
      (∀ e ∈ dtr, ∃ n s x, e = Event.dmaCheck n s x) ∧
      dtr.filterMap Event.dmaChan? = List.range 12 ∧
      (poll_bootsel env g fuel t0).trace =
        Event.pauseCore1 :: Event.csEnter :: dtr ++
          Event.streamWait t1 t2 :: Event.xipStatWait (t2 + 1) t3 :: l ∧
      t1 ≤ t2 ∧ env.streamCtr t2 = 0 ∧
      (∀ u, t1 ≤ u → u < t2 → env.streamCtr u ≠ 0) := by
  obtain ⟨t1, t2, t3, dtr, -, hq, hs, -, hpoll⟩ :=
    poll_done_shape env g fuel t0 hdone
  obtain ⟨hA, hB, -⟩ := dmaQuiesceFrom_shape env fuel (List.range 12) t0 t1 dtr hq
  obtain ⟨hle, hhold, hmin⟩ := firstTime_spec _ fuel t1 t2 hs
  refine ⟨dtr, t1, t2, t3,
    [Event.ctrlWrite 1 Oeover.DISABLE, Event.delayLoop 2000,
     Event.padSample 1 (t3 + 2002) (env.infrompad (t3 + 2002)),
     Event.ctrlWrite 1 Oeover.NORMAL, Event.csExit, Event.resumeCore1],
    hB, hA, ?_, hle, ?_, ?_⟩
  · rw [hpoll]
    simp [Outcome.trace]
  · simpa [streamExit] using hhold
  · intro u hu hl heq
    have hu' := hmin u hu hl
    simp [streamExit, heq] at hu'

/-- C6: every completed invocation leaves the CS pin's output-enable
override in the NORMAL state, whatever the sampled value and whatever the
initial override was, and the disabling write is paired with exactly one
restoring write. -/
theorem C6_override_restored
    (env : Env) (g : GpioCtrl) (fuel t0 : Nat)
    (hdone : (poll_bootsel env g fuel t0).isDone = true) :
    (poll_bootsel env g fuel t0).gpioAt 1 = some Oeover.NORMAL ∧
    (poll_bootsel env g fuel t0).trace.count
      (Event.ctrlWrite 1 Oeover.DISABLE) = 1 ∧
    (poll_bootsel env g fuel t0).trace.count
      (Event.ctrlWrite 1 Oeover.NORMAL) = 1 := by
  obtain ⟨t1, t2, t3, dtr, -, hq, -, -, hpoll⟩ :=
    poll_done_shape env g fuel t0 hdone
  obtain ⟨-, hB, -⟩ := dmaQuiesceFrom_shape env fuel (List.range 12) t0 t1 dtr hq
  have hd : Event.ctrlWrite 1 Oeover.DISABLE ∉ dtr := by
    intro hmem; obtain ⟨n, s, x, he⟩ := hB _ hmem; simp at he
  have hn : Event.ctrlWrite 1 Oeover.NORMAL ∉ dtr := by
    intro hmem; obtain ⟨n, s, x, he⟩ := hB _ hmem; simp at he
  rw [hpoll]
  refine ⟨by simp [Outcome.gpioAt, setOeover], ?_, ?_⟩
  · simp [Outcome.trace, List.count_cons, List.count_append,
      List.count_eq_zero.mpr hd]
  · simp [Outcome.trace, List.count_cons, List.count_append,
      List.count_eq_zero.mpr hn]

/-- C7: invoked while the core id differs from 0, the entry point takes the
fatal assertion path: the outcome is the panic with the core-0 message, the
event trace is empty (no pause of core 1, no critical section, no window
step), and every output-enable override is unchanged. -/
theorem C7_wrong_core_panics
    (env : Env) (g : GpioCtrl) (fuel t0 : Nat) (h : env.cpuid ≠ 0) :
    poll_bootsel env g fuel t0 = Outcome.panicked needCore0Msg g [] ∧
    (poll_bootsel env g fuel t0).trace = [] ∧
    (∀ p, (poll_bootsel env g fuel t0).gpioAt p = some (g p)) := by
  have hc : (env.cpuid == 0) = false := by simp [h]
  refine ⟨by simp [poll_bootsel, hc], ?_, ?_⟩
  · simp [poll_bootsel, hc, Outcome.trace]
  · intro p
    simp [poll_bootsel, hc, Outcome.gpioAt]

/-- C8: under hardware inputs that are stable over time, a second
invocation, started at the tick where a completed first invocation ended,
also completes and returns the same boolean. -/
theorem C8_stable_repoll
    (env : Env) (g g' : GpioCtrl) (fuel fuel' t0 te : Nat) (b : Bool)
    (hstable : Env.stable env)
    (hb : (poll_bootsel env g fuel t0).button? = some b)
    (_hte : (poll_bootsel env g fuel t0).tEnd? = some te) :
    (poll_bootsel env g' (fuel' + 1) te).button? = some b := by
  have hdone := button_some_isDone _ _ hb
  obtain ⟨t1, t2, t3, dtr, hcpu, hq, hs, hx, hpoll⟩ :=
    poll_done_shape env g fuel t0 hdone
  rw [hpoll] at hb
  simp only [Outcome.button?, Option.some.injEq] at hb
  obtain ⟨-, -, hC⟩ := dmaQuiesceFrom_shape env fuel (List.range 12) t0 t1 dtr hq
  have hst6 := hstable.2.2.2.2.2
  have hdall : ∀ n ∈ List.range 12, ∀ u, dmaExit env n u = true := by
    intro n hn u
    obtain ⟨w, hw⟩ := hC n hn
    calc dmaExit env n u = dmaExit env n 0 := stable_dmaExit hstable n u
      _ = dmaExit env n w := (stable_dmaExit hstable n w).symm
      _ = true := hw
  have hstream : ∀ u, streamExit env u = true := by
    have h2 := (firstTime_spec _ fuel t1 t2 hs).2.1
    intro u
    calc streamExit env u = streamExit env 0 := stable_streamExit hstable u
      _ = streamExit env t2 := (stable_streamExit hstable t2).symm
      _ = true := h2
  have hxip : ∀ u, xipIdle env u = true := by
    have h2 := (firstTime_spec _ fuel (t2 + 1) t3 hx).2.1
    intro u
    calc xipIdle env u = xipIdle env 0 := stable_xipIdle hstable u
      _ = xipIdle env t3 := (stable_xipIdle hstable t3).symm
      _ = true := h2
  obtain ⟨tr2, htr2⟩ := dmaQuiesceFrom_ready env fuel' (List.range 12) te hdall
  have hc2 : (env.cpuid == 0) = true := beq_iff_eq.mpr hcpu
  have h1 : dmaQuiesceFrom env (fuel' + 1) (List.range 12) te =
      some (te + 12, tr2) := by simpa using htr2
  have h2 : firstTime (fun u => streamExit env u) (fuel' + 1) (te + 12) =
      some (te + 12) := firstTime_immediate _ fuel' (te + 12) (hstream _)
  have h3 : firstTime (fun u => xipIdle env u) (fuel' + 1) (te + 12 + 1) =
      some (te + 12 + 1) := firstTime_immediate _ fuel' (te + 12 + 1) (hxip _)
  have h4 : (poll_bootsel env g' (fuel' + 1) te).button? =
      some (!env.infrompad (te + 12 + 1 + 2002)) := by
    simp [poll_bootsel, poll_bootsel_ramfunc, hc2, h1, h2, h3, Outcome.button?]
  rw [h4, ← hb, hst6 (te + 12 + 1 + 2002), hst6 (t3 + 2002)]

/-- C9: the only register writes of a completed invocation are the two
writes to the CS pin's control register, first disabling and then restoring
the output-enable override; the override of every other pin is unchanged
(and the time-indexed inputs of `Env` are read-only by construction, so no
other hardware state is touched). -/
theorem C9_write_frame
    (env : Env) (g : GpioCtrl) (fuel t0 : Nat) (p : Nat) (hp : p ≠ 1)
    (hdone : (poll_bootsel env g fuel t0).isDone = true) :
    (poll_bootsel env g fuel t0).trace.filter Event.isCtrlWrite =
      [Event.ctrlWrite 1 Oeover.DISABLE, Event.ctrlWrite 1 Oeover.NORMAL] ∧
    (poll_bootsel env g fuel t0).gpioAt p = some (g p) ∧
    (poll_bootsel env g fuel t0).gpioAt 1 = some Oeover.NORMAL := by
  obtain ⟨t1, t2, t3, dtr, -, hq, -, -, hpoll⟩ :=
    poll_done_shape env g fuel t0 hdone
  obtain ⟨-, hB, -⟩ := dmaQuiesceFrom_shape env fuel (List.range 12) t0 t1 dtr hq
  have hdtr : dtr.filter Event.isCtrlWrite = [] := by
    rw [List.filter_eq_nil_iff]
    intro e he
    obtain ⟨n, s, x, rfl⟩ := hB e he
    simp [Event.isCtrlWrite]
  rw [hpoll]
  refine ⟨?_, ?_, ?_⟩
  · simp [Outcome.trace, List.filter_append, List.filter_cons, hdtr,
      Event.isCtrlWrite]
  · simp [Outcome.gpioAt, setOeover, hp]
  · simp [Outcome.gpioAt, setOeover]

/-- C10: a completed invocation checks exactly the twelve DMA channels, in
increasing index order, each exactly once — the sequence of checked channel
indices in the trace is exactly `0, 1, ..., 11`, so no channel is ever
revisited within the invocation. -/
theorem C10_single_increasing_pass
    (env : Env) (g : GpioCtrl) (fuel t0 : Nat)
    (hdone : (poll_bootsel env g fuel t0).isDone = true) :
    (poll_bootsel env g fuel t0).trace.filterMap Event.dmaChan? =
      List.range 12 ∧
    ((poll_bootsel env g fuel t0).trace.filterMap Event.dmaChan?).Nodup := by
  obtain ⟨t1, t2, t3, dtr, -, hq, -, -, hpoll⟩ :=
    poll_done_shape env g fuel t0 hdone
  obtain ⟨hA, -, -⟩ := dmaQuiesceFrom_shape env fuel (List.range 12) t0 t1 dtr hq
  have htr : (poll_bootsel env g fuel t0).trace.filterMap Event.dmaChan? =
      List.range 12 := by
    rw [hpoll]
    simp [Outcome.trace, List.filterMap_cons, List.filterMap_append,
      Event.dmaChan?, hA]
  exact ⟨htr, htr ▸ List.nodup_range 12⟩

/-- Witness for C1 at a concrete quiescent environment and a concrete
wrong-core environment. -/
theorem C1_pause_resume_paired_witness :
    (poll_bootsel env0 g0 1 0).isDone = true ∧
    (poll_bootsel envCore1 g0 1 0).isPanicked = true ∧
    (poll_bootsel env0 g0 1 0).trace.count Event.pauseCore1 = 1 ∧
    (poll_bootsel env0 g0 1 0).trace.count Event.resumeCore1 = 1 ∧
    (∃ l, (poll_bootsel env0 g0 1 0).trace = l ++ [Event.resumeCore1]) ∧
    (poll_bootsel envCore1 g0 1 0).trace.count Event.pauseCore1 = 0 := by
  have h := C1_pause_resume_paired env0 g0 1 0 envCore1 g0 1 0 (by rfl) (by rfl)
  exact ⟨rfl, rfl, h.1, h.2.1, h.2.2.1, h.2.2.2.1⟩

/-- Witness for C2: a pad held low reads back `true`, a pad held high reads
back `false`. -/
theorem C2_active_low_inversion_witness :
    (poll_bootsel env0 g0 1 0).button? = some true ∧
    (poll_bootsel envHigh g0 1 0).button? = some false :=
  C2_active_low_inversion env0 envHigh g0 g0 1 1 0 0
    (fun _ => rfl) (by rfl) (fun _ => rfl) (by rfl)

/-- Witness for C3 at a concrete quiescent environment. -/
theorem C3_window_order_witness :
    (∃ t1,
      13 ≤ t1 ∧ xipIdle env0 t1 = true ∧
      (∀ u, 13 ≤ u → u < t1 → xipIdle env0 u = false) ∧
      [Event.xipStatWait 13 13, Event.ctrlWrite 1 Oeover.DISABLE,
       Event.delayLoop 2000, Event.padSample 1 2015 false,
       Event.ctrlWrite 1 Oeover.NORMAL] =
        [Event.xipStatWait 13 t1, Event.ctrlWrite 1 Oeover.DISABLE,
         Event.delayLoop 2000,
         Event.padSample 1 (t1 + 2002) (env0.infrompad (t1 + 2002)),
         Event.ctrlWrite 1 Oeover.NORMAL] ∧
      ramButton? env0 g0 1 13 = some (!env0.infrompad (t1 + 2002))) ∧
    (∃ l, (poll_bootsel env0 g0 1 0).trace =
      l ++ [Event.ctrlWrite 1 Oeover.NORMAL, Event.csExit,
            Event.resumeCore1]) :=
  C3_window_order env0 g0 1 13
    [Event.xipStatWait 13 13, Event.ctrlWrite 1 Oeover.DISABLE,
     Event.delayLoop 2000, Event.padSample 1 2015 false,
     Event.ctrlWrite 1 Oeover.NORMAL]
    env0 g0 1 0 (by rfl) (by rfl)

/-- Witness for C4: a channel busy in the sub-SRAM range until tick 2 holds
the wait exactly until tick 2, and a busy channel parked at the SRAM base is
passed immediately. -/
theorem C4_dma_channel_wait_witness :
    dmaWait envDmaBusy 0 5 0 = some 2 ∧
    SRAM_LOWER ≤ env0.dmaReadAddr 0 0 ∧
    ¬(envDmaBusy.dmaReadAddr 0 2 < SRAM_LOWER ∧
      envDmaBusy.dmaBusy 0 2 = true) ∧
    dmaWait env0 0 (0 + 1) 0 = some 0 := by
  have h := C4_dma_channel_wait envDmaBusy 0 5 0 2 (by rfl) env0 0 0 0 (by decide)
  exact ⟨by rfl, by decide, h.2.2.1, h.2.2.2⟩

/-- Witness for C5 at a concrete quiescent environment. -/
theorem C5_stream_drain_position_witness :
    (poll_bootsel env0 g0 1 0).isDone = true ∧
    ∃ dtr t1 t2 t3 l,
      (∀ e ∈ dtr, ∃ n s x, e = Event.dmaCheck n s x) ∧
      dtr.filterMap Event.dmaChan? = List.range 12 ∧
      (poll_bootsel env0 g0 1 0).trace =
        Event.pauseCore1 :: Event.csEnter :: dtr ++
          Event.streamWait t1 t2 :: Event.xipStatWait (t2 + 1) t3 :: l ∧
      t1 ≤ t2 ∧ env0.streamCtr t2 = 0 ∧
      (∀ u, t1 ≤ u → u < t2 → env0.streamCtr u ≠ 0) :=
  ⟨rfl, C5_stream_drain_position env0 g0 1 0 rfl⟩

/-- Witness for C6 at a concrete quiescent environment. -/
theorem C6_override_restored_witness :
    (poll_bootsel env0 g0 1 0).isDone = true ∧
    (poll_bootsel env0 g0 1 0).gpioAt 1 = some Oeover.NORMAL ∧
    (poll_bootsel env0 g0 1 0).trace.count
      (Event.ctrlWrite 1 Oeover.DISABLE) = 1 ∧
    (poll_bootsel env0 g0 1 0).trace.count
      (Event.ctrlWrite 1 Oeover.NORMAL) = 1 := by
  have h := C6_override_restored env0 g0 1 0 rfl
  exact ⟨rfl, h.1, h.2.1, h.2.2⟩

/-- Witness for C7: invoking from core 1 panics with the core-0 message,
emits no event and leaves the override untouched. -/
theorem C7_wrong_core_panics_witness :
    envCore1.cpuid ≠ 0 ∧
    poll_bootsel envCore1 g0 1 0 = Outcome.panicked needCore0Msg g0 [] ∧
    (poll_bootsel envCore1 g0 1 0).trace = [] ∧
    (poll_bootsel envCore1 g0 1 0).gpioAt 1 = some Oeover.NORMAL := by
  have h := C7_wrong_core_panics envCore1 g0 1 0 (by decide)
  exact ⟨by decide, h.1, h.2.1, h.2.2 1⟩

/-- Witness for C8: re-polling the stable quiescent environment from the
first invocation's finishing tick returns the same value. -/
theorem C8_stable_repoll_witness :
    (poll_bootsel env0 g0 1 0).button? = some true ∧
    (poll_bootsel env0 g0 1 0).tEnd? = some 2016 ∧
    (poll_bootsel env0 g0 (0 + 1) 2016).button? = some true := by
  refine ⟨by rfl, by rfl, ?_⟩
  exact C8_stable_repoll env0 g0 g0 1 0 0 2016 true
    ⟨fun _ _ => rfl, fun _ _ => rfl, fun _ => rfl, fun _ => rfl,
     fun _ => rfl, fun _ => rfl⟩
    (by rfl) (by rfl)

/-- Witness for C9 at a concrete quiescent environment, checking pin 0 as
the untouched frame. -/
theorem C9_write_frame_witness :
    (poll_bootsel env0 g0 1 0).trace.filter Event.isCtrlWrite =
      [Event.ctrlWrite 1 Oeover.DISABLE, Event.ctrlWrite 1 Oeover.NORMAL] ∧
    (poll_bootsel env0 g0 1 0).gpioAt 0 = some (g0 0) ∧
    (poll_bootsel env0 g0 1 0).gpioAt 1 = some Oeover.NORMAL :=
  C9_write_frame env0 g0 1 0 0 (by decide) rfl

/-- Witness for C10 at a concrete quiescent environment. -/
theorem C10_single_increasing_pass_witness :
    (poll_bootsel env0 g0 1 0).trace.filterMap Event.dmaChan? =
      List.range 12 ∧
    ((poll_bootsel env0 g0 1 0).trace.filterMap Event.dmaChan?).Nodup :=
  C10_single_increasing_pass env0 g0 1 0 rfl

end Bootsel
